import Mathlib

/-!
Verification of the question-generation and validation pipeline of the
designsnack-laws-patterns-backend repository (`lib/openai.ts`, class
`OpenAIService`), against its natural-language specification.

Modelling conventions (shallow embedding of the TypeScript source):
* Runtime JavaScript values arising from `JSON.parse` are modelled by the
  inductive type `JSVal`.  JavaScript numbers are modelled as exact
  rationals `ℚ` (every finite IEEE double is a rational; `NaN` and the
  infinities are not modelled).
* JavaScript array indexing `a[i]` with a number `i` returns an element
  only when `i` is a non-negative integer below the length, and otherwise
  yields `undefined`; an assignment `a[i] = v` at a non-integral or
  out-of-range index is a plain property write that is invisible to later
  element reads and does not change the length.  `jsArrGet` / `jsArrSet`
  capture exactly this.
* `Math.random()`-driven choices are passed in explicitly: the de-biaser
  consumes, per question, one boolean (the outcome of the comparison
  `Math.random() > 0.3`) and one value of `Fin 4` (the outcome of
  `Math.floor(Math.random() * 4)`); quantifying over them covers every
  outcome of the random choices.
* The asynchronous OpenAI transport is abstracted by `CompletionOutcome`:
  the call threw, returned no content, returned text that is not valid
  JSON, or returned text whose parsed JSON value is given.  Thrown
  JavaScript errors are modelled by `Except String`, carrying the error
  message.
-/

/-- A JavaScript/JSON runtime value (numbers as exact rationals). -/
inductive JSVal : Type
  | str (s : String)
  | num (q : ℚ)
  | bool (b : Bool)
  | null
  | undefined
  | arr (xs : List JSVal)
  | obj (fields : List (String × JSVal))

/-- JavaScript truthiness of a value (`!v` is the negation of this). -/
def JSVal.truthy : JSVal → Bool
  | .str s => s ≠ ""
  | .num q => q ≠ 0
  | .bool b => b
  | .null => false
  | .undefined => false
  | .arr _ => true
  | .obj _ => true

/-- Property access `v[k]` on a parsed JSON value: a lookup on objects,
`undefined` on everything else.  (On `null`/`undefined` real JS throws a
TypeError; that case is never exercised by the modelled code paths.) -/
def getProp (v : JSVal) (k : String) : JSVal :=
  match v with
  | .obj fields => (fields.lookup k).getD .undefined
  | _ => .undefined

/-- `Array.isArray`. -/
def isArr : JSVal → Bool
  | .arr _ => true
  | _ => false

/-- A candidate question as read off a parsed JSON object: the five fields
of the TS interface `OpenAIQuestionData`, each still an arbitrary runtime
value (missing fields read as `undefined`). -/
structure OpenAIQuestionData where
  question : JSVal
  options : JSVal
  correctAnswer : JSVal
  explanation : JSVal
  principleId : JSVal

/-- Reading the five fields of `OpenAIQuestionData` off a parsed value. -/
def toQuestionData (v : JSVal) : OpenAIQuestionData :=
  { question := getProp v "question"
    options := getProp v "options"
    correctAnswer := getProp v "correctAnswer"
    explanation := getProp v "explanation"
    principleId := getProp v "principleId" }

/-- The check `!x || typeof x !== 'string'`, negated: `x` is a truthy
string, i.e. a non-empty string. -/
def isNonEmptyStr : JSVal → Bool
  | .str s => s ≠ ""
  | _ => false

/-- JS `String.prototype.trim`: strip leading and trailing whitespace
(modelled on the character list; whitespace per `Char.isWhitespace`). -/
def jsTrim (s : String) : String :=
  String.mk
    (((s.data.dropWhile Char.isWhitespace).reverse.dropWhile
      Char.isWhitespace).reverse)

/-- The per-option check of `validateQuestions`, negated: the option is
truthy, a string, and non-empty after `trim()`. -/
def isValidOption : JSVal → Bool
  | .str s => s ≠ "" && jsTrim s ≠ ""
  | _ => false

/-- The per-candidate filter body of `OpenAIService.validateQuestions`
(lines 203–234): question a non-empty string, options an array of exactly
4 entries, `correctAnswer` a number in the closed range [0,3],
`principleId` a non-empty string, and no empty/non-string option. -/
def questionCheck (q : OpenAIQuestionData) : Bool :=
  isNonEmptyStr q.question &&
  (match q.options with
   | .arr xs => xs.length == 4
   | _ => false) &&
  (match q.correctAnswer with
   | .num c => decide (0 ≤ c ∧ c ≤ 3)
   | _ => false) &&
  isNonEmptyStr q.principleId &&
  (match q.options with
   | .arr xs => xs.all isValidOption
   | _ => false)

/-- Interpret a JS number as an element index of an array of length `len`:
some index exactly when it is a non-negative integer below `len`. -/
def ratIndex (q : ℚ) (len : ℕ) : Option ℕ :=
  if q.den = 1 ∧ 0 ≤ q.num ∧ q.num.toNat < len then some q.num.toNat else none

/-- JS array element read `xs[i]` with a number index. -/
def jsArrGet (xs : List JSVal) (i : ℚ) : JSVal :=
  match ratIndex i xs.length with
  | some n => xs.getD n .undefined
  | none => .undefined

/-- JS array element write `xs[i] = v` with a number index: a no-op on the
elements when the index is not a valid element index (property write). -/
def jsArrSet (xs : List JSVal) (i : ℚ) (v : JSVal) : List JSVal :=
  match ratIndex i xs.length with
  | some n => xs.set n v
  | none => xs

/-- JS strict equality `v === n` of a runtime value against a number. -/
def jsEqNum (v : JSVal) (n : ℚ) : Bool :=
  match v with
  | .num c => c == n
  | _ => false

/-- `OpenAIService.shuffleAnswerPosition` (lines 240–268).  `r1` is the
outcome of `Math.random() > 0.3`, `r2` the outcome of
`Math.floor(Math.random() * 4)`. -/
def shuffleAnswerPosition (r1 : Bool) (r2 : Fin 4)
    (question : OpenAIQuestionData) : OpenAIQuestionData :=
  if !(jsEqNum question.correctAnswer 0) && r1 then
    question
  else if jsEqNum question.correctAnswer ((r2 : ℕ) : ℚ) then
    question
  else
    match question.options, question.correctAnswer with
    | JSVal.arr opts, JSVal.num ca =>
      let correctOption := jsArrGet opts ca
      let targetOption := jsArrGet opts (((r2 : ℕ) : ℚ))
      let newOptions := jsArrSet (jsArrSet opts ca targetOption)
        (((r2 : ℕ) : ℚ)) correctOption
      { question with
          options := JSVal.arr newOptions
          correctAnswer := JSVal.num ((r2 : ℕ) : ℚ) }
    | _, _ =>
      -- unreachable from `validateQuestions`: there `options` is an array
      -- and `correctAnswer` a number (spreading a non-array would throw)
      question

/-- The de-bias pass `validQuestions.map(q => this.shuffleAnswerPosition(q))`
(line 237), with the ambient stream of random choices made explicit: the
i-th surviving question consumes the i-th pair of choices. -/
def debiasFrom (rnd : ℕ → Bool × Fin 4) :
    ℕ → List OpenAIQuestionData → List OpenAIQuestionData
  | _, [] => []
  | i, q :: rest =>
    shuffleAnswerPosition (rnd i).1 (rnd i).2 q :: debiasFrom rnd (i + 1) rest

/-- `OpenAIService.validateQuestions` (lines 202–238): filter out
structurally invalid candidates, then shuffle answer positions. -/
def validateQuestions (rnd : ℕ → Bool × Fin 4)
    (questions : List OpenAIQuestionData) : List OpenAIQuestionData :=
  debiasFrom rnd 0 (questions.filter questionCheck)

/-- Outcome of the OpenAI chat-completion call and of `JSON.parse` on its
content, abstracting the transport (`openai.chat.completions.create`,
lines 55–77): the call threw with the given error message; the response
had falsy content; the content was not valid JSON (the `SyntaxError`
message is given); or the content parsed to the given JSON value. -/
inductive CompletionOutcome : Type
  | transportError (msg : String)
  | noContent
  | invalidJSON (msg : String)
  | parsed (v : JSVal)

/-- `OpenAIService.generateQuestions` (lines 42–90), as a function of the
configuration flag (`OPENAI_API_KEY` present), the completion outcome and
the de-biasing random choices.  A thrown `Error` is `.error` carrying its
message.  Everything thrown inside the `try` block is re-thrown by the
`catch` as a fresh error with the message prefix
"Failed to generate questions: "; only the missing-key error escapes
unwrapped (it is raised before the `try`). -/
def generateQuestions (apiKeyConfigured : Bool) (outcome : CompletionOutcome)
    (rnd : ℕ → Bool × Fin 4) : Except String (List OpenAIQuestionData) :=
  if !apiKeyConfigured then
    .error "OpenAI API key is not configured"
  else
    match outcome with
    | .transportError msg => .error ("Failed to generate questions: " ++ msg)
    | .noContent =>
      .error "Failed to generate questions: No content received from OpenAI"
    | .invalidJSON msg => .error ("Failed to generate questions: " ++ msg)
    | .parsed v =>
      match getProp v "questions" with
      | .arr qs => .ok (validateQuestions rnd (qs.map toQuestionData))
      | _ =>
        .error "Failed to generate questions: Invalid response format from OpenAI"

/-- `OpenAIService.generateBatchQuestions` (lines 92–125): one independent
`generateQuestions` call per principle group (each group supplies its own
completion outcome and random choices), `Promise.allSettled`, then the
`forEach` that pushes fulfilled values into `allQuestions` and a label
"Batch i+1: Error: msg" per rejected group into `errors` (a rejected
promise's reason is the thrown `Error`, whose string form is
"Error: " followed by its message).  Returns `(allQuestions, errors)`;
the `errors` list is only logged by the source, not returned. -/
def generateBatchQuestions (apiKeyConfigured : Bool)
    (groups : List (CompletionOutcome × (ℕ → Bool × Fin 4))) :
    List OpenAIQuestionData × List String :=
  let results := groups.map fun g => generateQuestions apiKeyConfigured g.1 g.2
  results.enum.foldl
    (fun acc ir =>
      match ir.2 with
      | .ok value => (acc.1 ++ value, acc.2)
      | .error reason =>
        (acc.1, acc.2 ++ ["Batch " ++ toString (ir.1 + 1) ++ ": Error: " ++ reason]))
    ([], [])

/-- A principle, restricted to the fields the modelled functions read
(`id`, `title`, `oneLiner`; the remaining fields of the TS interface
`Principle` are not consumed by the fallback or cost paths). -/
structure Principle where
  id : String
  title : String
  oneLiner : String

/-- The three fixed generic distractor texts of
`OpenAIService.generateFallbackQuestions`. -/
def fallbackDistractor1 : String :=
  "Users prefer complex interfaces with many options"

def fallbackDistractor2 : String :=
  "Design should always prioritize aesthetics over functionality"

def fallbackDistractor3 : String :=
  "All users behave exactly the same way"

/-- The per-principle body of `generateFallbackQuestions` (lines 272–297).
`correctIndex` is the outcome of `Math.floor(Math.random() * 4)`.  The
source builds `[oneLiner, d1, d2, d3]`, captures `options[0]`, and when
`correctIndex !== 0` executes `options[0] = options[correctIndex];
options[correctIndex] = correctAnswer;`. -/
def fallbackQuestion (correctIndex : Fin 4) (principle : Principle) :
    OpenAIQuestionData :=
  let options : List String :=
    [principle.oneLiner, fallbackDistractor1, fallbackDistractor2,
     fallbackDistractor3]
  let correctAnswer := options.getD 0 ""
  let options' :=
    if (correctIndex : ℕ) ≠ 0 then
      (options.set 0 (options.getD (correctIndex : ℕ) "")).set
        (correctIndex : ℕ) correctAnswer
    else options
  { question :=
      .str ("What is the main idea behind " ++ principle.title ++ "?")
    options := .arr (options'.map .str)
    correctAnswer := .num ((correctIndex : ℕ) : ℚ)
    explanation :=
      .str ("The correct answer reflects the core concept: \""
        ++ principle.oneLiner ++ "\"")
    principleId := .str principle.id }

/-- The `principles.map(...)` of `generateFallbackQuestions`, with the
ambient stream of random choices made explicit per position. -/
def fallbackFrom (rnd : ℕ → Fin 4) :
    ℕ → List Principle → List OpenAIQuestionData
  | _, [] => []
  | i, p :: rest => fallbackQuestion (rnd i) p :: fallbackFrom rnd (i + 1) rest

/-- `OpenAIService.generateFallbackQuestions` (lines 271–298). -/
def generateFallbackQuestions (rnd : ℕ → Fin 4)
    (principles : List Principle) : List OpenAIQuestionData :=
  fallbackFrom rnd 0 principles

/-- `Math.round`: round half toward positive infinity. -/
def jsRound (q : ℚ) : ℤ := ⌊q + 1 / 2⌋

/-- The result record of `estimateTokenCost`. -/
structure CostEstimate where
  estimatedPromptTokens : ℚ
  estimatedCompletionTokens : ℚ
  estimatedCostUSD : ℚ

/-- `OpenAIService.estimateTokenCost` (lines 301–320).  The decimal
literals 0.03 and 0.06 are modelled as the exact rationals they denote;
`questionsPerPrinciple` is a JS number, modelled as a rational. -/
def estimateTokenCost (principles : List Principle)
    (questionsPerPrinciple : ℚ) : CostEstimate :=
  let averageTokensPerPrinciple : ℚ := 150
  let tokensPerQuestion : ℚ := 100
  let promptTokens :=
    (principles.length : ℚ) * averageTokensPerPrinciple + 500
  let completionTokens :=
    (principles.length : ℚ) * questionsPerPrinciple * tokensPerQuestion
  let cost :=
    promptTokens * (3 / 100) / 1000 + completionTokens * (6 / 100) / 1000
  { estimatedPromptTokens := promptTokens
    estimatedCompletionTokens := completionTokens
    estimatedCostUSD := (jsRound (cost * 100) : ℚ) / 100 }

/-- The options list of a candidate whose `options` field is an array. -/
def optionsList (q : OpenAIQuestionData) : List JSVal :=
  match q.options with
  | .arr xs => xs
  | _ => []

/-- The structural invariant claimed for validator output: options an
array of exactly 4 entries, each a string non-empty after trimming, and
`correctAnswer` a number in the closed range [0,3]. -/
def validatedInvariant (q : OpenAIQuestionData) : Bool :=
  (match q.options with
   | .arr xs => xs.length == 4 && xs.all isValidOption
   | _ => false) &&
  (match q.correctAnswer with
   | .num c => decide (0 ≤ c ∧ c ≤ 3)
   | _ => false)

/-- The candidate's `correctAnswer` field is integral whenever it is a
number (the property `validateQuestions` does not check). -/
def intCorrect (q : OpenAIQuestionData) : Bool :=
  match q.correctAnswer with
  | .num c => c.den == 1
  | _ => true

/-- The option texts are pairwise distinct in content (options that are
strings compared by their text; used on validated questions, whose
options are all strings). -/
def distinctOptions (q : OpenAIQuestionData) : Bool :=
  decide ((optionsList q).map (fun v =>
    match v with
    | JSVal.str s => some s
    | _ => none)).Nodup

/-- The value stored at the question's correct-answer index, read with JS
indexing semantics. -/
def correctOptionVal (q : OpenAIQuestionData) : JSVal :=
  match q.correctAnswer with
  | .num c => jsArrGet (optionsList q) c
  | _ => .undefined

/-- The error message of a failed call (empty string on success). -/
def errMsg (r : Except String (List OpenAIQuestionData)) : String :=
  match r with
  | .error e => e
  | .ok _ => ""

/-- The payload of a fulfilled call. -/
def okValue {α β : Type} (r : Except β α) : Option α :=
  match r with
  | .ok a => some a
  | .error _ => none

/-- The "Batch i+1: Error: msg" label of a rejected group, as pushed by
`generateBatchQuestions`. -/
def batchErrLabel (ir : ℕ × Except String (List OpenAIQuestionData)) :
    Option String :=
  match ir.2 with
  | .error reason => some ("Batch " ++ toString (ir.1 + 1) ++ ": Error: " ++ reason)
  | .ok _ => none

/-- A fixed stream of de-bias choices: never keep early, target index 1. -/
def rndTo1 : ℕ → Bool × Fin 4 := fun _ => (false, 1)

/-- A fixed stream of de-bias choices whose boolean is `true` (the
`Math.random() > 0.3` comparison succeeded, so non-zero-indexed
questions are kept unchanged). -/
def rndKeep : ℕ → Bool × Fin 4 := fun _ => (true, 0)

/-- A concrete candidate with four distinct well-formed options and the
non-integral correct-answer index one half (the JS number 0.5). -/
def candHalf : OpenAIQuestionData :=
  { question := .str "Q"
    options := .arr [.str "a", .str "b", .str "c", .str "d"]
    correctAnswer := .num (mkRat 1 2)
    explanation := .undefined
    principleId := .str "p1" }

/-- A concrete candidate with four identical options and the non-integral
correct-answer index three halves (the JS number 1.5). -/
def candDup : OpenAIQuestionData :=
  { question := .str "Q"
    options := .arr [.str "a", .str "a", .str "a", .str "a"]
    correctAnswer := .num (mkRat 3 2)
    explanation := .undefined
    principleId := .str "p1" }

/-- A concrete well-formed candidate: distinct options, integral
correct-answer index 2. -/
def candGood : OpenAIQuestionData :=
  { question := .str "Q"
    options := .arr [.str "a", .str "b", .str "c", .str "d"]
    correctAnswer := .num ((2 : ℕ) : ℚ)
    explanation := .str "E"
    principleId := .str "p1" }

/-- A concrete malformed candidate (options array of length 2). -/
def candShort : OpenAIQuestionData :=
  { question := .str "Q2"
    options := .arr [.str "a", .str "b"]
    correctAnswer := .num ((0 : ℕ) : ℚ)
    explanation := .undefined
    principleId := .str "p1" }

/-- The all-undefined candidate record (used as a `getD` default). -/
def defaultQuestion : OpenAIQuestionData :=
  { question := .undefined
    options := .undefined
    correctAnswer := .undefined
    explanation := .undefined
    principleId := .undefined }

/-- A concrete sample principle. -/
def pSample : Principle :=
  { id := "p1"
    title := "Fitts Law"
    oneLiner := "Bigger and closer targets are faster to acquire" }

/-- A fixed stream of fallback position choices: always slot 2. -/
def rndF : ℕ → Fin 4 := fun _ => 2

/-- The all-empty principle record (used as a `getD` default). -/
def defaultPrinciple : Principle :=
  { id := ""
    title := ""
    oneLiner := "" }

/-! ### Helper lemmas -/

lemma list_eq_four {α : Type} (l : List α) (h : l.length = 4) :
    ∃ a b c d, l = [a, b, c, d] := by
  match l, h with
  | [a, b, c, d], _ => exact ⟨a, b, c, d, rfl⟩

lemma perm_swap2 {α : Type} (x y z : α) (t : List α) :
    List.Perm (z :: y :: x :: t) (x :: y :: z :: t) :=
  ((List.Perm.swap y z (x :: t)).trans
    (List.Perm.cons y (List.Perm.swap x z t))).trans
    (List.Perm.swap x y (z :: t))

lemma perm_swap3 {α : Type} (w x y z : α) (t : List α) :
    List.Perm (z :: x :: y :: w :: t) (w :: x :: y :: z :: t) :=
  ((List.Perm.swap x z (y :: w :: t)).trans
    ((List.Perm.cons x (List.Perm.swap y z (w :: t))).trans
      ((List.Perm.cons x (List.Perm.cons y (List.Perm.swap w z t))).trans
        (List.Perm.cons x (List.Perm.swap w y (z :: t)))))).trans
    (List.Perm.swap w x (y :: z :: t))

lemma ratIndex_natCast (n len : ℕ) (h : n < len) :
    ratIndex ((n : ℕ) : ℚ) len = some n := by
  simp [ratIndex, h]

lemma jsArrGet_natCast (xs : List JSVal) (n : ℕ) (h : n < xs.length) :
    jsArrGet xs ((n : ℕ) : ℚ) = xs.getD n JSVal.undefined := by
  simp [jsArrGet, ratIndex_natCast n xs.length h]

lemma jsArrSet_natCast (xs : List JSVal) (n : ℕ) (v : JSVal)
    (h : n < xs.length) :
    jsArrSet xs ((n : ℕ) : ℚ) v = xs.set n v := by
  simp [jsArrSet, ratIndex_natCast n xs.length h]

lemma questionCheck_spec (q : OpenAIQuestionData)
    (h : questionCheck q = true) :
    isNonEmptyStr q.question = true ∧
    (∃ opts, q.options = JSVal.arr opts ∧ opts.length = 4 ∧
      opts.all isValidOption = true) ∧
    (∃ c, q.correctAnswer = JSVal.num c ∧ 0 ≤ c ∧ c ≤ 3) ∧
    isNonEmptyStr q.principleId = true := by
  unfold questionCheck at h
  cases hopt : q.options <;> rw [hopt] at h <;>
    cases hca : q.correctAnswer <;> rw [hca] at h <;>
      simp_all [Bool.and_eq_true]

lemma shuffleAnswerPosition_spec (r1 : Bool) (r2 : Fin 4)
    (q : OpenAIQuestionData) (opts : List JSVal) (n : ℕ)
    (hopt : q.options = JSVal.arr opts) (hlen : opts.length = 4)
    (hca : q.correctAnswer = JSVal.num ((n : ℕ) : ℚ)) (hn : n < 4) :
    ∃ opts2 m, m < 4 ∧
      shuffleAnswerPosition r1 r2 q =
        { question := q.question
          options := JSVal.arr opts2
          correctAnswer := JSVal.num ((m : ℕ) : ℚ)
          explanation := q.explanation
          principleId := q.principleId } ∧
      List.Perm opts2 opts ∧
      opts2.getD m JSVal.undefined = opts.getD n JSVal.undefined := by
  obtain ⟨qq, qo, qc, qe, qp⟩ := q
  simp only at hopt hca
  subst hopt hca
  unfold shuffleAnswerPosition
  by_cases h1 : (!(jsEqNum (JSVal.num ((n : ℕ) : ℚ)) 0) && r1) = true
  · rw [if_pos h1]
    exact ⟨opts, n, hn, rfl, List.Perm.refl _, rfl⟩
  · rw [if_neg h1]
    by_cases h2 : jsEqNum (JSVal.num ((n : ℕ) : ℚ)) ((r2 : ℕ) : ℚ) = true
    · rw [if_pos h2]
      exact ⟨opts, n, hn, rfl, List.Perm.refl _, rfl⟩
    · rw [if_neg h2]
      have hne : n ≠ (r2 : ℕ) := by
        intro heq
        apply h2
        simp [jsEqNum, heq]
      obtain ⟨a, b, c, d, rfl⟩ := list_eq_four opts hlen
      dsimp only
      rw [jsArrGet_natCast [a, b, c, d] n (by simp; omega),
        jsArrGet_natCast [a, b, c, d] (r2 : ℕ) (by simp),
        jsArrSet_natCast [a, b, c, d] n _ (by simp; omega),
        jsArrSet_natCast _ (r2 : ℕ) _ (by simp)]
      refine ⟨_, (r2 : ℕ), r2.isLt, rfl, ?_, ?_⟩
      · interval_cases n <;> fin_cases r2 <;> simp_all <;>
          first
            | exact List.Perm.swap _ _ _
            | exact List.Perm.cons _ (List.Perm.swap _ _ _)
            | exact List.Perm.cons _ (List.Perm.cons _ (List.Perm.swap _ _ _))
            | exact perm_swap2 _ _ _ _
            | exact List.Perm.cons _ (perm_swap2 _ _ _ _)
            | exact perm_swap3 _ _ _ _ _
      · interval_cases n <;> fin_cases r2 <;> simp_all

lemma debiasFrom_length (rnd : ℕ → Bool × Fin 4) (k : ℕ)
    (l : List OpenAIQuestionData) : (debiasFrom rnd k l).length = l.length := by
  induction l generalizing k with
  | nil => rfl
  | cons q rest ih => simp [debiasFrom, ih]

lemma debiasFrom_getD (rnd : ℕ → Bool × Fin 4) (k i : ℕ)
    (l : List OpenAIQuestionData) (h : i < l.length) :
    (debiasFrom rnd k l).getD i defaultQuestion =
      shuffleAnswerPosition (rnd (k + i)).1 (rnd (k + i)).2
        (l.getD i defaultQuestion) := by
  induction l generalizing k i with
  | nil => simp at h
  | cons q rest ih =>
    cases i with
    | zero => simp [debiasFrom]
    | succ j =>
      have hj : j < rest.length := by simpa using h
      have hstep := ih (k + 1) j hj
      have harith : k + 1 + j = k + (j + 1) := by omega
      rw [harith] at hstep
      simpa [debiasFrom] using hstep

lemma debiasFrom_mem (rnd : ℕ → Bool × Fin 4) (k : ℕ)
    (l : List OpenAIQuestionData) (q2 : OpenAIQuestionData)
    (h : q2 ∈ debiasFrom rnd k l) :
    ∃ p ∈ l, ∃ r1 r2, q2 = shuffleAnswerPosition r1 r2 p := by
  induction l generalizing k with
  | nil => simp [debiasFrom] at h
  | cons q rest ih =>
    rcases (by simpa [debiasFrom] using h :
        q2 = shuffleAnswerPosition (rnd k).1 (rnd k).2 q ∨
          q2 ∈ debiasFrom rnd (k + 1) rest) with h1 | h1
    · exact ⟨q, List.mem_cons_self q rest, (rnd k).1, (rnd k).2, h1⟩
    · obtain ⟨p, hp, r1, r2, he⟩ := ih (k + 1) h1
      exact ⟨p, List.mem_cons_of_mem q hp, r1, r2, he⟩

lemma intCorrect_num (q : OpenAIQuestionData) (c : ℚ)
    (hca : q.correctAnswer = JSVal.num c) (h : intCorrect q = true) :
    c.den = 1 := by
  simpa [intCorrect, hca] using h

lemma rat_in_range_int (c : ℚ) (hden : c.den = 1) (h0 : 0 ≤ c)
    (h3 : c ≤ 3) : ∃ n : ℕ, c = ((n : ℕ) : ℚ) ∧ n < 4 := by
  have hnum : (c.num : ℚ) = c := (Rat.den_eq_one_iff c).mp hden
  have h0n : (0 : ℤ) ≤ c.num := Rat.num_nonneg.mpr h0
  have h3n : c.num ≤ 3 := by
    have : (c.num : ℚ) ≤ 3 := by rw [hnum]; exact h3
    exact_mod_cast this
  refine ⟨c.num.toNat, ?_, by omega⟩
  have h2 : ((c.num.toNat : ℕ) : ℚ) = ((c.num : ℤ) : ℚ) := by
    norm_cast
    exact Int.toNat_of_nonneg h0n
  exact (h2.trans hnum).symm

lemma shuffle_output_validated (r1 : Bool) (r2 : Fin 4)
    (p : OpenAIQuestionData) (hc : questionCheck p = true)
    (hi : intCorrect p = true) :
    validatedInvariant (shuffleAnswerPosition r1 r2 p) = true := by
  obtain ⟨-, ⟨opts, hopt, hlen, hall⟩, ⟨c, hca, hc0, hc3⟩, -⟩ :=
    questionCheck_spec p hc
  have hden := intCorrect_num p c hca hi
  obtain ⟨n, rfl, hn⟩ := rat_in_range_int c hden hc0 hc3
  obtain ⟨opts2, m, hm, heq, hperm, -⟩ :=
    shuffleAnswerPosition_spec r1 r2 p opts n hopt hlen hca hn
  rw [heq]
  simp only [validatedInvariant, Bool.and_eq_true, beq_iff_eq]
  refine ⟨⟨hperm.length_eq.trans hlen, ?_⟩, ?_⟩
  · rw [List.all_eq_true] at hall ⊢
    intro x hx
    exact hall x (hperm.mem_iff.mp hx)
  · have hm3 : (m : ℚ) ≤ 3 := by exact_mod_cast Nat.lt_succ_iff.mp hm
    simp [Nat.cast_nonneg, hm3]

lemma shuffle_correctAnswer_range (r1 : Bool) (r2 : Fin 4)
    (p : OpenAIQuestionData) (hc : questionCheck p = true) :
    ∃ c, (shuffleAnswerPosition r1 r2 p).correctAnswer = JSVal.num c ∧
      0 ≤ c ∧ c ≤ 3 := by
  obtain ⟨-, ⟨opts, hopt, hlen, -⟩, ⟨c, hca, hc0, hc3⟩, -⟩ :=
    questionCheck_spec p hc
  obtain ⟨qq, qo, qc, qe, qp⟩ := p
  simp only at hopt hca
  subst hopt hca
  unfold shuffleAnswerPosition
  by_cases h1 : (!(jsEqNum (JSVal.num c) 0) && r1) = true
  · rw [if_pos h1]
    exact ⟨c, rfl, hc0, hc3⟩
  · rw [if_neg h1]
    by_cases h2 : jsEqNum (JSVal.num c) ((r2 : ℕ) : ℚ) = true
    · rw [if_pos h2]
      exact ⟨c, rfl, hc0, hc3⟩
    · rw [if_neg h2]
      refine ⟨((r2 : ℕ) : ℚ), rfl, by positivity, ?_⟩
      have : (r2 : ℕ) ≤ 3 := Nat.lt_succ_iff.mp r2.isLt
      exact_mod_cast this

/-! ### Claim theorems -/

/-- C1, counterexample: with no precondition on the candidates the claimed
structural invariant fails.  The candidate `candHalf` (correct-answer
index 0.5, four distinct valid options) passes every validator check, and
under the random outcome `rndTo1` (shuffle, target index 1) the swap reads
`options[0.5]` (`undefined`) and writes it into slot 1, so an output
question has an option that is not a non-empty string. -/
theorem validateQuestions_invariant_cex :
    (validateQuestions rndTo1 [candHalf]).all validatedInvariant = false := by
  decide

/-- C1 (amended): for every candidate list in which every candidate whose
`correctAnswer` is a number has an integral one, every question returned
by `validateQuestions` has an options array of length exactly 4 whose
entries are all strings non-empty after trimming, and a numeric
`correctAnswer` in the closed range [0,3] — for every outcome of the
random choices. -/
theorem validateQuestions_invariant (rnd : ℕ → Bool × Fin 4)
    (qs : List OpenAIQuestionData) (h : qs.all intCorrect = true) :
    (validateQuestions rnd qs).all validatedInvariant = true := by
  rw [List.all_eq_true] at h ⊢
  intro q2 hq2
  obtain ⟨p, hp, r1, r2, rfl⟩ := debiasFrom_mem rnd 0 _ q2 hq2
  have hp2 := List.mem_filter.mp hp
  exact shuffle_output_validated r1 r2 p hp2.2 (h p hp2.1)

/-- Witness for C1: a concrete well-formed candidate list satisfying the
integrality precondition, on which the invariant holds. -/
theorem validateQuestions_invariant_witness :
    [candGood].all intCorrect = true ∧
    (validateQuestions rndTo1 [candGood]).all validatedInvariant = true :=
  ⟨by decide, validateQuestions_invariant rndTo1 [candGood] (by decide)⟩

/-- C2, counterexample: the validator enforces neither integrality of
`correctAnswer` nor pairwise distinctness of the options.  The candidate
`candDup` (four identical options, correct-answer index 1.5) survives
validation unchanged under the random outcome `rndKeep`, so an output
question violates both claimed properties; the output list is non-empty
since `List.all` is `true` on the empty list. -/
theorem validateQuestions_int_distinct_cex :
    (validateQuestions rndKeep [candDup]).all
      (fun q => intCorrect q && distinctOptions q) = false := by
  decide

/-- C2 (amended): every question returned by `validateQuestions` has a
`correctAnswer` that is a number in the closed range [0,3]; integrality
and pairwise distinctness of the options are not guaranteed. -/
theorem validateQuestions_correctAnswer_range (rnd : ℕ → Bool × Fin 4)
    (qs : List OpenAIQuestionData) :
    ∀ q2 ∈ validateQuestions rnd qs,
      ∃ c, q2.correctAnswer = JSVal.num c ∧ 0 ≤ c ∧ c ≤ 3 := by
  intro q2 hq2
  obtain ⟨p, hp, r1, r2, rfl⟩ := debiasFrom_mem rnd 0 _ q2 hq2
  exact shuffle_correctAnswer_range r1 r2 p (List.mem_filter.mp hp).2

/-- Witness for C2 (amended): instantiated at a concrete validated
question. -/
theorem validateQuestions_correctAnswer_range_witness :
    candGood ∈ validateQuestions rndKeep [candGood] ∧
    (∃ c, candGood.correctAnswer = JSVal.num c ∧ 0 ≤ c ∧ c ≤ 3) := by
  have hmem : candGood ∈ validateQuestions rndKeep [candGood] := by
    rw [show validateQuestions rndKeep [candGood] = [candGood] from rfl]
    exact List.mem_singleton.mpr rfl
  exact ⟨hmem,
    validateQuestions_correctAnswer_range rndKeep [candGood] candGood hmem⟩

lemma filter_length_sub (qs : List OpenAIQuestionData) :
    (qs.filter questionCheck).length =
      qs.length - qs.countP (fun q => !(questionCheck q)) := by
  induction qs with
  | nil => rfl
  | cons q rest ih =>
    have hc : rest.countP (fun p => !(questionCheck p)) ≤ rest.length :=
      List.countP_le_length _
    by_cases h : questionCheck q = true <;>
      simp [List.filter_cons, List.countP_cons, h] <;> omega

/-- C3: on a list of N candidates of which exactly M fail at least one
per-candidate structural check (the filter `questionCheck`), the validator
returns exactly N−M questions — and on the empty list it returns the empty
list without error (the model is a total function, so no exception is
possible on any input). -/
theorem validateQuestions_graceful_count (rnd : ℕ → Bool × Fin 4)
    (qs : List OpenAIQuestionData) :
    (validateQuestions rnd qs).length =
      qs.length - qs.countP (fun q => !(questionCheck q)) ∧
    validateQuestions rnd [] = [] := by
  refine ⟨?_, rfl⟩
  unfold validateQuestions
  rw [debiasFrom_length, filter_length_sub]

/-- C4: a completion whose text is not valid JSON, and a completion whose
parsed JSON value has no `questions` array, both make `generateQuestions`
throw (return an error), never an empty list. -/
theorem generateQuestions_parse_fatal (rnd : ℕ → Bool × Fin 4)
    (msg : String) (v : JSVal)
    (h : isArr (getProp v "questions") = false) :
    (∃ e1, generateQuestions true (.invalidJSON msg) rnd =
      Except.error e1) ∧
    (∃ e2, generateQuestions true (.parsed v) rnd = Except.error e2) := by
  refine ⟨⟨"Failed to generate questions: " ++ msg, rfl⟩, ?_⟩
  cases hq : getProp v "questions" <;> rw [hq] at h <;>
    simp_all [generateQuestions, isArr]

/-- Witness for C4: a completion whose parsed value is the JSON number 0
(so it has no `questions` array). -/
theorem generateQuestions_parse_fatal_witness :
    isArr (getProp (JSVal.num 0) "questions") = false ∧
    ((∃ e1, generateQuestions true (.invalidJSON "Unexpected token") rndKeep
        = Except.error e1) ∧
     (∃ e2, generateQuestions true (.parsed (JSVal.num 0)) rndKeep
        = Except.error e2)) :=
  ⟨by decide,
    generateQuestions_parse_fatal rndKeep "Unexpected token" (JSVal.num 0)
      (by decide)⟩

/-- C5, counterexample: a transport error is not propagated verbatim by
`generateQuestions`; its message is re-wrapped with the prefix
"Failed to generate questions: ". -/
theorem generateQuestions_transport_verbatim_cex :
    errMsg (generateQuestions true
        (.transportError "rate limit exceeded") rndKeep) ≠
      "rate limit exceeded" ∧
    errMsg (generateQuestions true
        (.transportError "rate limit exceeded") rndKeep) =
      "Failed to generate questions: rate limit exceeded" :=
  ⟨by decide, by decide⟩

/-- C5 (amended): when the completion call inside `generateQuestions`
fails, the error does propagate as a failure of the call (it is not
suppressed), but wrapped in a fresh error whose message is the original
message prefixed with "Failed to generate questions: ", not verbatim.
(The standalone `generateCompletion` helper, by contrast, re-throws its
error unchanged, but `generateQuestions` does not use it.) -/
theorem generateQuestions_transport_wrapped (msg : String)
    (rnd : ℕ → Bool × Fin 4) :
    generateQuestions true (.transportError msg) rnd =
      Except.error ("Failed to generate questions: " ++ msg) := rfl

/-- C6: for every validated question (all validator checks pass and the
correct-answer index is integral, the shape the spec calls
ValidatedQuestion) and every outcome of the random choices, the de-biaser
preserves the multiset of the four option values, keeps the value at the
correct-answer index the same, and leaves `question`, `explanation` and
`principleId` untouched; over a list of questions the de-bias pass
preserves the length. -/
theorem shuffle_content_preservation (r1 : Bool) (r2 : Fin 4)
    (q : OpenAIQuestionData) (hc : questionCheck q = true)
    (hi : intCorrect q = true) :
    ((optionsList (shuffleAnswerPosition r1 r2 q) : Multiset JSVal) =
      (optionsList q : Multiset JSVal)) ∧
    correctOptionVal (shuffleAnswerPosition r1 r2 q) = correctOptionVal q ∧
    (shuffleAnswerPosition r1 r2 q).question = q.question ∧
    (shuffleAnswerPosition r1 r2 q).explanation = q.explanation ∧
    (shuffleAnswerPosition r1 r2 q).principleId = q.principleId ∧
    ∀ (rnd : ℕ → Bool × Fin 4) (k : ℕ) (l : List OpenAIQuestionData),
      (debiasFrom rnd k l).length = l.length := by
  obtain ⟨-, ⟨opts, hopt, hlen, -⟩, ⟨c, hca, hc0, hc3⟩, -⟩ :=
    questionCheck_spec q hc
  have hden := intCorrect_num q c hca hi
  obtain ⟨n, rfl, hn⟩ := rat_in_range_int c hden hc0 hc3
  obtain ⟨opts2, m, hm, heq, hperm, hgd⟩ :=
    shuffleAnswerPosition_spec r1 r2 q opts n hopt hlen hca hn
  have hq_opts : optionsList q = opts := by simp [optionsList, hopt]
  have hq_cov : correctOptionVal q = opts.getD n JSVal.undefined := by
    simp only [correctOptionVal, hca, hq_opts]
    rw [jsArrGet_natCast opts n (by omega)]
  rw [heq]
  refine ⟨?_, ?_, rfl, rfl, rfl,
    fun rnd k l => debiasFrom_length rnd k l⟩
  · rw [hq_opts]
    simpa [optionsList] using Multiset.coe_eq_coe.mpr hperm
  · have hl2 : m < opts2.length := by rw [hperm.length_eq, hlen]; exact hm
    rw [hq_cov]
    simp only [correctOptionVal, optionsList]
    rw [jsArrGet_natCast opts2 m hl2]
    exact hgd

/-- Witness for C6: instantiated at the concrete validated question
`candGood`, with the shuffle outcome (no keep, target slot 1). -/
theorem shuffle_content_preservation_witness :
    (questionCheck candGood = true ∧ intCorrect candGood = true) ∧
    (((optionsList (shuffleAnswerPosition false 1 candGood) :
        Multiset JSVal) = (optionsList candGood : Multiset JSVal)) ∧
    correctOptionVal (shuffleAnswerPosition false 1 candGood) =
      correctOptionVal candGood ∧
    (shuffleAnswerPosition false 1 candGood).question = candGood.question ∧
    (shuffleAnswerPosition false 1 candGood).explanation =
      candGood.explanation ∧
    (shuffleAnswerPosition false 1 candGood).principleId =
      candGood.principleId ∧
    ∀ (rnd : ℕ → Bool × Fin 4) (k : ℕ) (l : List OpenAIQuestionData),
      (debiasFrom rnd k l).length = l.length) :=
  ⟨⟨by decide, by decide⟩,
    shuffle_content_preservation false 1 candGood (by decide) (by decide)⟩

lemma fallbackFrom_length (rnd : ℕ → Fin 4) (k : ℕ) (l : List Principle) :
    (fallbackFrom rnd k l).length = l.length := by
  induction l generalizing k with
  | nil => rfl
  | cons p rest ih => simp [fallbackFrom, ih]

lemma fallbackFrom_getD (rnd : ℕ → Fin 4) (k i : ℕ) (l : List Principle)
    (h : i < l.length) :
    (fallbackFrom rnd k l).getD i defaultQuestion =
      fallbackQuestion (rnd (k + i)) (l.getD i defaultPrinciple) := by
  induction l generalizing k i with
  | nil => simp at h
  | cons p rest ih =>
    cases i with
    | zero => simp [fallbackFrom]
    | succ j =>
      have hj : j < rest.length := by simpa using h
      have hstep := ih (k + 1) j hj
      have harith : k + 1 + j = k + (j + 1) := by omega
      rw [harith] at hstep
      simpa [fallbackFrom] using hstep

lemma fallbackQuestion_spec (r : Fin 4) (p : Principle) :
    (optionsList (fallbackQuestion r p)).length = 4 ∧
    (fallbackQuestion r p).correctAnswer = JSVal.num ((r : ℕ) : ℚ) ∧
    (optionsList (fallbackQuestion r p)).getD (r : ℕ) JSVal.undefined =
      JSVal.str p.oneLiner ∧
    ((optionsList (fallbackQuestion r p)) : Multiset JSVal) =
      (([p.oneLiner, fallbackDistractor1, fallbackDistractor2,
        fallbackDistractor3].map JSVal.str : List JSVal) : Multiset JSVal) := by
  fin_cases r <;>
    refine ⟨by simp [fallbackQuestion, optionsList], rfl,
      by simp [fallbackQuestion, optionsList, List.set, List.getD], ?_⟩ <;>
    simp only [fallbackQuestion, optionsList, List.set, List.getD,
      List.map] <;>
    first
      | rfl
      | exact Multiset.coe_eq_coe.mpr (List.Perm.swap _ _ _)
      | exact Multiset.coe_eq_coe.mpr (perm_swap2 _ _ _ _)
      | exact Multiset.coe_eq_coe.mpr (perm_swap3 _ _ _ _ _)

/-- C7: `generateFallbackQuestions` on K principles returns exactly K
questions (pure and total: no external call, no failure), the i-th being
the fallback question for the i-th principle; each fallback question has
exactly 4 options, its `correctAnswer` is the fresh uniform draw
`Math.floor(Math.random() * 4)` itself (hence uniformly distributed over
the 4 slots), the option at that index is the principle's one-liner, and
the options are the one-liner plus the three fixed distractors permuted
by the swap. -/
theorem generateFallbackQuestions_spec (rnd : ℕ → Fin 4)
    (principles : List Principle) :
    (generateFallbackQuestions rnd principles).length =
      principles.length ∧
    (∀ i, i < principles.length →
      (generateFallbackQuestions rnd principles).getD i defaultQuestion =
        fallbackQuestion (rnd i) (principles.getD i defaultPrinciple)) ∧
    (∀ (r : Fin 4) (p : Principle),
      (optionsList (fallbackQuestion r p)).length = 4 ∧
      (fallbackQuestion r p).correctAnswer = JSVal.num ((r : ℕ) : ℚ) ∧
      (optionsList (fallbackQuestion r p)).getD (r : ℕ) JSVal.undefined =
        JSVal.str p.oneLiner ∧
      ((optionsList (fallbackQuestion r p)) : Multiset JSVal) =
        (([p.oneLiner, fallbackDistractor1, fallbackDistractor2,
          fallbackDistractor3].map JSVal.str : List JSVal) :
            Multiset JSVal)) := by
  refine ⟨fallbackFrom_length rnd 0 principles, ?_,
    fun r p => fallbackQuestion_spec r p⟩
  intro i hi
  simpa using fallbackFrom_getD rnd 0 i principles hi

/-- Witness for C7: instantiated at one concrete principle with the
position stream that always chooses slot 2. -/
theorem generateFallbackQuestions_spec_witness :
    0 < [pSample].length ∧
    (generateFallbackQuestions rndF [pSample]).getD 0 defaultQuestion =
      fallbackQuestion (rndF 0) ([pSample].getD 0 defaultPrinciple) :=
  ⟨by decide,
    (generateFallbackQuestions_spec rndF [pSample]).2.1 0 (by decide)⟩

lemma estimateTokenCost_fields (p : List Principle) (q : ℚ) :
    (estimateTokenCost p q).estimatedPromptTokens =
      (p.length : ℚ) * 150 + 500 ∧
    (estimateTokenCost p q).estimatedCompletionTokens =
      (p.length : ℚ) * q * 100 ∧
    (estimateTokenCost p q).estimatedCostUSD =
      ((⌊(((p.length : ℚ) * 150 + 500) * (3 / 100) / 1000 +
          (p.length : ℚ) * q * 100 * (6 / 100) / 1000) * 100 + 1 / 2⌋ :
            ℤ) : ℚ) / 100 :=
  ⟨rfl, rfl, rfl⟩

/-- C8: `estimateTokenCost` is a pure deterministic function; each of the
three result fields is non-decreasing in the number of principles and in
the questions-per-principle parameter, all three are non-negative for
non-negative inputs, and the monetary estimate is an integer number of
cents (rounded to two decimal places). -/
theorem estimateTokenCost_monotone_nonneg (p1 p2 : List Principle)
    (q1 q2 : ℚ) (hp : p1.length ≤ p2.length) (hq : q1 ≤ q2)
    (h0 : 0 ≤ q1) :
    (estimateTokenCost p1 q1).estimatedPromptTokens ≤
      (estimateTokenCost p2 q2).estimatedPromptTokens ∧
    (estimateTokenCost p1 q1).estimatedCompletionTokens ≤
      (estimateTokenCost p2 q2).estimatedCompletionTokens ∧
    (estimateTokenCost p1 q1).estimatedCostUSD ≤
      (estimateTokenCost p2 q2).estimatedCostUSD ∧
    0 ≤ (estimateTokenCost p1 q1).estimatedPromptTokens ∧
    0 ≤ (estimateTokenCost p1 q1).estimatedCompletionTokens ∧
    0 ≤ (estimateTokenCost p1 q1).estimatedCostUSD ∧
    ∃ k : ℤ, (estimateTokenCost p1 q1).estimatedCostUSD = (k : ℚ) / 100 := by
  obtain ⟨hf1, hf2, hf3⟩ := estimateTokenCost_fields p1 q1
  obtain ⟨hg1, hg2, hg3⟩ := estimateTokenCost_fields p2 q2
  rw [hf1, hf2, hf3, hg1, hg2, hg3]
  have hn : ((p1.length : ℚ)) ≤ ((p2.length : ℚ)) := by exact_mod_cast hp
  have hn0 : (0 : ℚ) ≤ (p1.length : ℚ) := by positivity
  have hq2 : (0 : ℚ) ≤ q2 := le_trans h0 hq
  have hA : (p1.length : ℚ) * 150 + 500 ≤ (p2.length : ℚ) * 150 + 500 := by
    linarith
  have hB0 : (0 : ℚ) ≤ (p1.length : ℚ) * q1 * 100 :=
    mul_nonneg (mul_nonneg hn0 h0) (by norm_num)
  have hB : (p1.length : ℚ) * q1 * 100 ≤ (p2.length : ℚ) * q2 * 100 := by
    have hm : (p1.length : ℚ) * q1 ≤ (p2.length : ℚ) * q2 :=
      mul_le_mul hn hq h0 (le_trans hn0 hn)
    linarith
  have hcost : ((p1.length : ℚ) * 150 + 500) * (3 / 100) / 1000 +
      (p1.length : ℚ) * q1 * 100 * (6 / 100) / 1000 ≤
        ((p2.length : ℚ) * 150 + 500) * (3 / 100) / 1000 +
          (p2.length : ℚ) * q2 * 100 * (6 / 100) / 1000 := by
    have h1 : ((p1.length : ℚ) * 150 + 500) * (3 / 100) ≤
        ((p2.length : ℚ) * 150 + 500) * (3 / 100) := by linarith
    have h2 : (p1.length : ℚ) * q1 * 100 * (6 / 100) ≤
        (p2.length : ℚ) * q2 * 100 * (6 / 100) := by linarith
    linarith
  have hcost0 : (0 : ℚ) ≤ ((p1.length : ℚ) * 150 + 500) * (3 / 100) / 1000 +
      (p1.length : ℚ) * q1 * 100 * (6 / 100) / 1000 := by
    have h1 : (0 : ℚ) ≤ ((p1.length : ℚ) * 150 + 500) * (3 / 100) / 1000 := by
      positivity
    have h2 : (0 : ℚ) ≤ (p1.length : ℚ) * q1 * 100 * (6 / 100) / 1000 :=
      div_nonneg (mul_nonneg hB0 (by norm_num)) (by norm_num)
    linarith
  have hfloor : ⌊(((p1.length : ℚ) * 150 + 500) * (3 / 100) / 1000 +
      (p1.length : ℚ) * q1 * 100 * (6 / 100) / 1000) * 100 + 1 / 2⌋ ≤
        ⌊(((p2.length : ℚ) * 150 + 500) * (3 / 100) / 1000 +
          (p2.length : ℚ) * q2 * 100 * (6 / 100) / 1000) * 100 + 1 / 2⌋ :=
    Int.floor_le_floor (by linarith)
  have hfloor0 : (0 : ℤ) ≤
      ⌊(((p1.length : ℚ) * 150 + 500) * (3 / 100) / 1000 +
        (p1.length : ℚ) * q1 * 100 * (6 / 100) / 1000) * 100 + 1 / 2⌋ := by
    apply Int.le_floor.mpr
    push_cast
    linarith
  refine ⟨hA, hB, ?_, by positivity, hB0, ?_, ⟨_, rfl⟩⟩
  · have hc : ((⌊(((p1.length : ℚ) * 150 + 500) * (3 / 100) / 1000 +
        (p1.length : ℚ) * q1 * 100 * (6 / 100) / 1000) * 100 + 1 / 2⌋ :
          ℤ) : ℚ) ≤
        ((⌊(((p2.length : ℚ) * 150 + 500) * (3 / 100) / 1000 +
          (p2.length : ℚ) * q2 * 100 * (6 / 100) / 1000) * 100 + 1 / 2⌋ :
            ℤ) : ℚ) := by exact_mod_cast hfloor
    linarith
  · have hc : (0 : ℚ) ≤
        ((⌊(((p1.length : ℚ) * 150 + 500) * (3 / 100) / 1000 +
          (p1.length : ℚ) * q1 * 100 * (6 / 100) / 1000) * 100 + 1 / 2⌋ :
            ℤ) : ℚ) := by exact_mod_cast hfloor0
    linarith

/-- Witness for C8: instantiated at the empty principle list versus one
principle, with questions-per-principle going from 0 to 5. -/
theorem estimateTokenCost_monotone_nonneg_witness :
    ((([] : List Principle).length ≤ [pSample].length) ∧
      ((0 : ℚ) ≤ 5) ∧ ((0 : ℚ) ≤ 0)) ∧
    ((estimateTokenCost [] 0).estimatedPromptTokens ≤
      (estimateTokenCost [pSample] 5).estimatedPromptTokens ∧
    (estimateTokenCost [] 0).estimatedCompletionTokens ≤
      (estimateTokenCost [pSample] 5).estimatedCompletionTokens ∧
    (estimateTokenCost [] 0).estimatedCostUSD ≤
      (estimateTokenCost [pSample] 5).estimatedCostUSD ∧
    0 ≤ (estimateTokenCost [] 0).estimatedPromptTokens ∧
    0 ≤ (estimateTokenCost [] 0).estimatedCompletionTokens ∧
    0 ≤ (estimateTokenCost [] 0).estimatedCostUSD ∧
    ∃ k : ℤ, (estimateTokenCost [] 0).estimatedCostUSD = (k : ℚ) / 100) :=
  ⟨⟨by norm_num, by norm_num, le_refl 0⟩,
    estimateTokenCost_monotone_nonneg [] [pSample] 0 5 (by norm_num)
      (by norm_num) (le_refl 0)⟩

lemma allSettled_foldl (l : List (ℕ × Except String (List OpenAIQuestionData)))
    (acc1 : List OpenAIQuestionData) (acc2 : List String) :
    l.foldl
      (fun acc ir =>
        match ir.2 with
        | .ok value => (acc.1 ++ value, acc.2)
        | .error reason =>
          (acc.1,
            acc.2 ++ ["Batch " ++ toString (ir.1 + 1) ++ ": Error: " ++ reason]))
      (acc1, acc2) =
      (acc1 ++ (l.filterMap (fun ir => okValue ir.2)).flatten,
       acc2 ++ l.filterMap batchErrLabel) := by
  induction l generalizing acc1 acc2 with
  | nil => simp
  | cons ir rest ih =>
    obtain ⟨i, r⟩ := ir
    cases r with
    | ok value =>
      simp [List.filterMap_cons, okValue, batchErrLabel, ih,
        List.append_assoc]
    | error reason =>
      simp [List.filterMap_cons, okValue, batchErrLabel, ih,
        List.append_assoc]

lemma enumFrom_filterMap_snd {α β : Type} (f : α → Option β) :
    ∀ (k : ℕ) (l : List α),
      (List.enumFrom k l).filterMap (fun ir => f ir.2) = l.filterMap f
  | _, [] => rfl
  | k, a :: rest => by
    simp only [List.enumFrom, List.filterMap_cons]
    rw [enumFrom_filterMap_snd f (k + 1) rest]

/-- C9: `generateBatchQuestions` makes one independent `generateQuestions`
call per principle group, never throws (its model returns a plain pair),
returns exactly the concatenation, in group order, of the question lists
of the groups whose call succeeded, and aggregates one labelled error
string per failed group (which the source only logs via `console.warn`)
instead of propagating any group's error as an exception. -/
theorem generateBatchQuestions_partial_failure (apiKey : Bool)
    (groups : List (CompletionOutcome × (ℕ → Bool × Fin 4))) :
    generateBatchQuestions apiKey groups =
      (((groups.map fun g => generateQuestions apiKey g.1 g.2).filterMap
          okValue).flatten,
       ((groups.map fun g =>
          generateQuestions apiKey g.1 g.2).enum.filterMap batchErrLabel)) := by
  unfold generateBatchQuestions
  rw [allSettled_foldl]
  simp only [List.nil_append]
  congr 1
  rw [List.enum]
  rw [enumFrom_filterMap_snd okValue 0
    (groups.map fun g => generateQuestions apiKey g.1 g.2)]

/-- C10: the validator preserves the relative order of surviving
candidates — the filtered list is a sublist of the input (no reordering,
duplication or insertion), and the i-th output question is exactly the
de-bias transform of the i-th surviving candidate. -/
theorem validateQuestions_order (rnd : ℕ → Bool × Fin 4)
    (qs : List OpenAIQuestionData) :
    List.Sublist (qs.filter questionCheck) qs ∧
    (validateQuestions rnd qs).length = (qs.filter questionCheck).length ∧
    ∀ i, i < (qs.filter questionCheck).length →
      (validateQuestions rnd qs).getD i defaultQuestion =
        shuffleAnswerPosition (rnd i).1 (rnd i).2
          ((qs.filter questionCheck).getD i defaultQuestion) := by
  refine ⟨List.filter_sublist qs, ?_, ?_⟩
  · unfold validateQuestions
    rw [debiasFrom_length]
  · intro i hi
    unfold validateQuestions
    simpa using debiasFrom_getD rnd 0 i (qs.filter questionCheck) hi

/-- Witness for C10: a two-candidate list whose second candidate is
malformed; the surviving first candidate appears at output position 0 as
its own de-bias transform. -/
theorem validateQuestions_order_witness :
    0 < ([candGood, candShort].filter questionCheck).length ∧
    (validateQuestions rndTo1 [candGood, candShort]).getD 0
        defaultQuestion =
      shuffleAnswerPosition (rndTo1 0).1 (rndTo1 0).2
        (([candGood, candShort].filter questionCheck).getD 0
          defaultQuestion) :=
  ⟨by decide,
    (validateQuestions_order rndTo1 [candGood, candShort]).2.2 0 (by decide)⟩
